import Mathlib

/-!
# Verification of the `findroot` solver library

Shallow embedding of the repository's solvers over exact rationals (`ℚ`
standing for the `f64` values the code manipulates; machine arithmetic is
idealised as exact field arithmetic, and `ℚ`'s total division `q / 0 = 0`
stands in for the IEEE non-finite results that the source lets propagate).
Caller-supplied closures (`Fn(&[f64]) -> Vec<f64>` and friends) become
function parameters; panics (`panic!`, `todo!`, `.unwrap()` failures) become
explicit error values of `Except`/`Option` types.

Sources embedded: `src/brent.rs`, `src/newton.rs`, `src/broyden.rs`,
`src/sand.rs`, `src/steffensen.rs`, `src/wegstein.rs`, `src/jacobian.rs`.
-/

/-! ## Vector and matrix operations (ndarray element-wise arithmetic) -/

/-- Elementwise subtraction of two vectors (`&a - &b` on `Array1`). -/
def vsub (a b : List ℚ) : List ℚ := List.zipWith (· - ·) a b

/-- Elementwise addition of two vectors (`&a + &b` on `Array1`). -/
def vadd (a b : List ℚ) : List ℚ := List.zipWith (· + ·) a b

/-- Elementwise product of two vectors (`&a * &b` on `Array1`). -/
def vmulE (a b : List ℚ) : List ℚ := List.zipWith (· * ·) a b

/-- Elementwise quotient of two vectors (`&a / &b` on `Array1`). -/
def vdivE (a b : List ℚ) : List ℚ := List.zipWith (· / ·) a b

/-- Scalar times vector (`&a * c` on `Array1`). -/
def smul (c : ℚ) (a : List ℚ) : List ℚ := a.map (fun x => c * x)

/-- Vector divided by a scalar (`&a / c` on `Array1`). -/
def sdiv (a : List ℚ) (c : ℚ) : List ℚ := a.map (fun x => x / c)

/-- Dot product of two vectors (`a.dot(&b)`). -/
def dot (a b : List ℚ) : ℚ := (List.zipWith (· * ·) a b).sum

/-- A dense matrix, stored as its list of rows (`ndarray::Array2<f64>`). -/
abbrev Matq := List (List ℚ)

/-- Matrix-vector product (`m.dot(&v)`). -/
def matVec (m : Matq) (v : List ℚ) : List ℚ := m.map (fun r => dot r v)

/-- Outer product of a column vector and a row vector
(`a.into_shape([n,1]).dot(&b.into_shape([1,n]))`). -/
def outerProd (a b : List ℚ) : Matq := a.map (fun ai => b.map (fun bj => ai * bj))

/-- Elementwise sum of two matrices (`&m + &n` on `Array2`). -/
def matAdd (m n : Matq) : Matq := List.zipWith (List.zipWith (· + ·)) m n

/-- Matrix divided by a scalar (`&m / c` on `Array2`). -/
def matSDiv (m : Matq) (c : ℚ) : Matq := m.map (List.map (fun x => x / c))

/-- Diagonal matrix built from a vector (`Array2::from_diag(&g)`). -/
def diagMat : List ℚ → Matq
  | [] => []
  | g :: gs => (g :: gs.map (fun _ => 0)) :: (diagMat gs).map (fun r => 0 :: r)

/-- Number of rows of a matrix (`m.shape()[0]`). -/
def shape0 (m : Matq) : ℕ := m.length

/-- Number of columns of a matrix (`m.shape()[1]`; an `Array2` is always
rectangular, so the length of the first row). -/
def shape1 (m : Matq) : ℕ := (m.headD []).length

/-- Three-way `zipWith`, used to embed three-array `ndarray::Zip`s. -/
def vzip3 (f : ℚ → ℚ → ℚ → ℚ) : List ℚ → List ℚ → List ℚ → List ℚ
  | a :: as', b :: bs, c :: cs => f a b c :: vzip3 f as' bs cs
  | _, _, _ => []

/-! ## Elementwise convergence tests

Each solver file contains its own `Zip::from(..).all(..)` test; each is
embedded as its own Boolean function, faithful to its own source file. -/

/-- From `src/broyden.rs` lines 88–95: elementwise
`(x1 - x2).abs() < atol + rtol * x1.abs().max(x2.abs())`, all components. -/
def broydenConvergedTest : List ℚ → List ℚ → List ℚ → List ℚ → Bool
  | a :: as', b :: bs, t :: ts, r :: rs =>
    decide (|a - b| < t + r * max |a| |b|) && broydenConvergedTest as' bs ts rs
  | _, _, _, _ => true

/-- From `src/steffensen.rs` lines 50–58 (inside `Steffensen::apply`): elementwise
`(x1 - x2).abs() < atol + rtol * x1.abs().max(x2.abs())`, all components. -/
def steffensenConvergedTest : List ℚ → List ℚ → List ℚ → List ℚ → Bool
  | a :: as', b :: bs, t :: ts, r :: rs =>
    decide (|a - b| < t + r * max |a| |b|) && steffensenConvergedTest as' bs ts rs
  | _, _, _, _ => true

/-- From `src/wegstein.rs` lines 50–58 (inside `Wegstein::apply`): elementwise
`(x1 - x2).abs() < atol + rtol * x1.abs().max(x2.abs())`, all components. -/
def wegsteinConvergedTest : List ℚ → List ℚ → List ℚ → List ℚ → Bool
  | a :: as', b :: bs, t :: ts, r :: rs =>
    decide (|a - b| < t + r * max |a| |b|) && wegsteinConvergedTest as' bs ts rs
  | _, _, _, _ => true

/-- The convergence predicate exactly as the specification words it:
`∀ i: |a_i − b_i| < atol_i + rtol_i · max(|a_i|, |b_i|)`. -/
def tolSpec (a b atol rtol : List ℚ) : Prop :=
  ∀ i, i < a.length →
    |a.getD i 0 - b.getD i 0| <
      atol.getD i 0 + rtol.getD i 0 * max |a.getD i 0| |b.getD i 0|

/-! ## Steffensen (`src/steffensen.rs`) -/

/-- The method `Steffensen::apply`: evaluate `y = f(x)` and report the elementwise
convergence test between `y` and `x` together with `y`. -/
def steffensenApply (f : List ℚ → List ℚ) (x atol rtol : List ℚ) :
    Bool × List ℚ :=
  let y := f x
  (steffensenConvergedTest y x atol rtol, y)

/-- Aitken delta-squared extrapolation used by `Steffensen::solve`:
`x0 - (x1 - x0).powi(2) * (x2 + x0 - 2*x1).recip()` componentwise. -/
def aitkenStep (x y z : List ℚ) : List ℚ :=
  vzip3 (fun x0 x1 x2 => x0 - (x1 - x0) ^ 2 * (x2 + x0 - 2 * x1)⁻¹) x y z

/-- The `for _k in 0..max_iter` loop of `Steffensen::solve`. -/
def steffensenLoop (f : List ℚ → List ℚ) (atol rtol : List ℚ) :
    ℕ → List ℚ → List ℚ
  | 0, x => x
  | k + 1, x =>
    let p1 := steffensenApply f x atol rtol
    if p1.1 then x
    else
      let p2 := steffensenApply f p1.2 atol rtol
      if p2.1 then p1.2
      else steffensenLoop f atol rtol k (aitkenStep x p1.2 p2.2)

/-- The entry point `Steffensen::solve(init, atol, rtol)` with iteration cap `maxIter`
(`max_iter`, default 500). -/
def steffensenSolve (f : List ℚ → List ℚ) (init atol rtol : List ℚ)
    (maxIter : ℕ) : List ℚ :=
  steffensenLoop f atol rtol maxIter init

/-! ## Wegstein (`src/wegstein.rs`) -/

/-- The method `Wegstein::apply`: evaluate `y = f(x)` and report the elementwise
convergence test between `y` and `x` together with `y`. -/
def wegsteinApply (f : List ℚ → List ℚ) (x atol rtol : List ℚ) :
    Bool × List ℚ :=
  let y := f x
  (wegsteinConvergedTest y x atol rtol, y)

/-- The `for _k in 0..max_iter` loop of `Wegstein::solve`; the state is
`(x_prev, y_prev, x)`.  The secant factor is
`t = (x − x_prev) / (x − y − (x_prev − y_prev))` and, after the history
swap, the next iterate is `t·(y − x) + x`. -/
def wegsteinLoop (f : List ℚ → List ℚ) (atol rtol : List ℚ) :
    ℕ → List ℚ × List ℚ × List ℚ → List ℚ
  | 0, (_, _, x) => x
  | k + 1, (xp, yp, x) =>
    let p := wegsteinApply f x atol rtol
    if p.1 then x
    else
      let t := vdivE (vsub x xp) (vsub (vsub x p.2) (vsub xp yp))
      wegsteinLoop f atol rtol k (x, p.2, vadd (vmulE t (vsub p.2 x)) x)

/-- The entry point `Wegstein::solve(init, atol, rtol)` with iteration cap `maxIter`
(`max_iter`, default 500): one pre-loop convergence check on the initial
guess, then the relaxation loop. -/
def wegsteinSolve (f : List ℚ → List ℚ) (init atol rtol : List ℚ)
    (maxIter : ℕ) : List ℚ :=
  let p := wegsteinApply f init atol rtol
  if p.1 then init
  else wegsteinLoop f atol rtol maxIter (init, p.2, p.2)

/-! ## Broyden (`src/broyden.rs`) -/

/-- The `for _k in 1..max_iter` main loop of `Broyden::solve`; the state is
`(x_prev, y_prev, x, jac_inv)`.  Each pass evaluates `y = f(x)`, performs the
rank-1 inverse-Jacobian update, proposes the next iterate, and tests it
against the previous one; the Boolean in the result records whether the
returned vector was produced by the convergence branch (`true`) or by
exhausting the iteration budget (`false`). -/
def broydenLoop (f : List ℚ → List ℚ) (atol rtol : List ℚ) :
    ℕ → List ℚ × List ℚ × List ℚ × Matq → List ℚ × Bool
  | 0, (_, _, x, _) => (x, false)
  | k + 1, (xp, yp, x, jacInv) =>
    let y := f x
    let dx := vsub x xp
    let df := vsub (vsub x y) (vsub xp yp)
    let jacInv2 :=
      matAdd (matSDiv (outerProd (vsub dx (matVec jacInv df)) df) (dot df df))
        jacInv
    let x2 := vadd (matVec jacInv2 (vsub y x)) x
    if broydenConvergedTest x2 x atol rtol then (x2, true)
    else broydenLoop f atol rtol k (x, y, x2, jacInv2)

/-- The entry point `Broyden::solve(init, atol, rtol)` with iteration cap `maxIter`
(`max_iter`, default 500), including its convergence flag (see
`broydenLoop`).  The bootstrap evaluates `x1 = f(init)` and `x2 = f(x1)`,
forms the diagonal secant `grad_inv = (x1 − x0)/(2·x1 − x0 − x2)`
elementwise, seeds `jac_inv = diag(grad_inv)`, and proposes
`x = jac_inv·(x2 − x1) + x1`; the loop then runs `max_iter − 1` times. -/
def broydenSolveFlag (f : List ℚ → List ℚ) (init atol rtol : List ℚ)
    (maxIter : ℕ) : List ℚ × Bool :=
  let x1 := f init
  let x2 := f x1
  let gradInv := vdivE (vsub x1 init) (vsub (vsub (smul 2 x1) init) x2)
  let jacInv := diagMat gradInv
  let x := vadd (matVec jacInv (vsub x2 x1)) x1
  broydenLoop f atol rtol (maxIter - 1) (x1, x2, x, jacInv)

/-- The entry point `Broyden::solve(init, atol, rtol)`: the returned iterate. -/
def broydenSolve (f : List ℚ → List ℚ) (init atol rtol : List ℚ)
    (maxIter : ℕ) : List ℚ :=
  (broydenSolveFlag f init atol rtol maxIter).1

/-! ## Newton-Raphson (`src/newton.rs`)

The dense linear solve `jac.factorize_into().unwrap().solve(&f).unwrap()`
comes from the external `ndarray_linalg` crate, which the specification
treats as an opaque linear-solve capability; it is embedded as the function
parameter `ls`, with `none` standing for a failing (`unwrap`-panicking)
factorization/solve.  A `panic!` of `NewtonRaphson::solve` itself is the
fatal abort value `NewtonAbort.nonSquareJacobian`. -/

/-- The fatal, unrecoverable aborts that `NewtonRaphson::solve` can raise:
the explicit `panic!` on a non-square Jacobian (carrying the two observed
dimensions) and the `unwrap` panic of the external linear solve. -/
inductive NewtonAbort where
  | nonSquareJacobian : ℕ → ℕ → NewtonAbort
  | linearSolveFailed : NewtonAbort
deriving DecidableEq

/-- From `src/newton.rs`, the residual test: elementwise `fx.abs() < tol`, all
components (`Zip::from(&f).and(&tol).all(|&fx, &tol| fx.abs() < tol)`). -/
def newtonConvergedTest : List ℚ → List ℚ → Bool
  | fx :: fs, t :: ts => decide (|fx| < t) && newtonConvergedTest fs ts
  | _, _ => true

/-- The `for _k in 0..self.max_iter` loop of `NewtonRaphson::solve`:
check the residual, return `x` on convergence, panic on a non-square
Jacobian, otherwise solve `J·δ = f(x)` and continue from `x − δ`. -/
def newtonLoop (f : List ℚ → List ℚ) (jac : List ℚ → List ℚ → Matq)
    (ls : Matq → List ℚ → Option (List ℚ)) (tol : List ℚ) :
    ℕ → List ℚ → Except NewtonAbort (List ℚ)
  | 0, x => .ok x
  | k + 1, x =>
    let fv := f x
    if newtonConvergedTest fv tol then .ok x
    else
      let J := jac x fv
      if shape0 J ≠ shape1 J then
        .error (.nonSquareJacobian (shape0 J) (shape1 J))
      else
        match ls J fv with
        | some d => newtonLoop f jac ls tol k (vsub x d)
        | none => .error .linearSolveFailed

/-- The entry point `NewtonRaphson::solve(init, tol)` with iteration cap `maxIter`
(`max_iter`, default 20).  Falling out of the loop returns the last iterate
silently (`.ok`), exactly as the source does. -/
def newtonSolve (f : List ℚ → List ℚ) (jac : List ℚ → List ℚ → Matq)
    (ls : Matq → List ℚ → Option (List ℚ)) (init tol : List ℚ)
    (maxIter : ℕ) : Except NewtonAbort (List ℚ) :=
  newtonLoop f jac ls tol maxIter init

/-! ## SAND (`src/sand.rs`)

`Sand` is generic over a `Jacobian` capability whose single operation is
`solve_jacobian : &[f64] -> Vec<f64>`; the capability produced at a point
`x` is embedded as the function `jacSolve x : List ℚ → List ℚ`. -/

/-- From `src/sand.rs`, the residual test: elementwise `fx.abs() < tol`, all
components. -/
def sandConvergedTest : List ℚ → List ℚ → Bool
  | fx :: fs, t :: ts => decide (|fx| < t) && sandConvergedTest fs ts
  | _, _ => true

/-- The `for _k in 0..self.max_iter` loop of `Sand::solve`: check the
residual first, and otherwise perform the 4-stage Runge-Kutta-style
correction (`k1` at `x`, `k2` at `x − k1·0.5`, `k3` at `x − k2·0.5`,
`k4` at `x − k3`, all against the same residual `f(x)`). -/
def sandLoop (f : List ℚ → List ℚ) (jacSolve : List ℚ → List ℚ → List ℚ)
    (tol : List ℚ) : ℕ → List ℚ → List ℚ
  | 0, x => x
  | k + 1, x =>
    let fv := f x
    if sandConvergedTest fv tol then x
    else
      let k1 := jacSolve x fv
      let k2 := jacSolve (vsub x (smul (1 / 2) k1)) fv
      let k3 := jacSolve (vsub x (smul (1 / 2) k2)) fv
      let k4 := jacSolve (vsub x k3) fv
      sandLoop f jacSolve tol k
        (vsub x (sdiv (vadd (vadd k1 (smul 2 (vadd k2 k3))) k4) 6))

/-- The entry point `Sand::solve(init, tol)` with iteration cap `maxIter` (`max_iter`,
default 500). -/
def sandSolve (f : List ℚ → List ℚ) (jacSolve : List ℚ → List ℚ → List ℚ)
    (init tol : List ℚ) (maxIter : ℕ) : List ℚ :=
  sandLoop f jacSolve tol maxIter init

/-! ## Jacobian implementations (`src/jacobian.rs`) -/

/-- The loud failure of an unimplemented `solve_jacobian` path: the
`todo!()` panics in `src/jacobian.rs`. -/
inductive JacPanic where
  | unimplemented : JacPanic
deriving DecidableEq

/-- The struct `FullJacobian(Array2<f64>)`: a dense Jacobian matrix. -/
structure FullJacobian where
  mat : Matq
deriving DecidableEq

/-- The method `FullJacobian::solve_jacobian`: for a length-1 residual return
`[b[0] / J[[0,0]]]`; every other length hits `todo!()`. -/
def FullJacobian.solve_jacobian (self : FullJacobian) (b : List ℚ) :
    Except JacPanic (List ℚ) :=
  if b.length = 1 then .ok [b.headD 0 / (self.mat.headD []).headD 0]
  else .error .unimplemented

/-- The struct `BandedJacobian` with lower bandwidth `ml`, upper
bandwidth `mu`, and the `ml + mu + 1` diagonals. -/
structure BandedJacobian where
  ml : ℕ
  mu : ℕ
  diags : List (List ℚ)
deriving DecidableEq

/-- The method `BandedJacobian::solve_jacobian`: in the `ml == 0 && mu == 0` case the
elementwise quotient `b / diags[0]`; both wider-band branches of the source
(`ml < 2 && mu < 2`, and the final catch-all) are `todo!()`. -/
def BandedJacobian.solve_jacobian (self : BandedJacobian) (b : List ℚ) :
    Except JacPanic (List ℚ) :=
  if self.ml = 0 ∧ self.mu = 0 then
    .ok (List.zipWith (· / ·) b (self.diags.headD []))
  else if self.ml < 2 ∧ self.mu < 2 then .error .unimplemented
  else .error .unimplemented

/-! ## Brent (`src/brent.rs`)

`Brentq::solve` is a direct port of a non-structured zeroin routine: a
`loop` over a `jump : Label` variable with labels `L20`–`L150`.  It is
embedded as a step function on an explicit state record carrying every
mutable local of the source (`a fa b fb c fc d e s p q r xm tol iter`),
plus a count of the `f.call` evaluations performed so far.  `f64::EPSILON`
is `2⁻⁵²`.  Note that the source's `L100` arm assigns `d` and `e` but never
reassigns `jump`, so a run that reaches `L100` loops forever; the embedding
reproduces this (the label stays `l100`), and `brentRun` consequently needs
fuel, returning `none` if the fuel runs out. -/

/-- The machine epsilon `f64::EPSILON` = 2⁻⁵². -/
def machEps : ℚ := 1 / 2 ^ 52

/-- The error type of `Brentq::solve` (`UnivariateError` in the source). -/
inductive UnivariateError where
  | notConverged : ℚ → ℚ → UnivariateError
  | failed : String → UnivariateError
deriving DecidableEq

/-- The precondition-violation message of `Brentq::solve`. -/
def brentPrecondMsg : String :=
  "f(lower_bound) and f(upper_bound) must have opposite signs."

/-- The jump labels of `Brentq::solve`'s ported control structure. -/
inductive BLabel where
  | l20 | l30 | l40 | l50 | l60 | l70 | l80 | l90 | l100 | l110 | l120
  | l130 | l140 | l150
deriving DecidableEq

/-- The mutable locals of `Brentq::solve`, plus the current jump label and
the number of `f.call` evaluations performed so far. -/
structure BrentState where
  a : ℚ
  fa : ℚ
  b : ℚ
  fb : ℚ
  c : ℚ
  fc : ℚ
  d : ℚ
  e : ℚ
  s : ℚ
  p : ℚ
  q : ℚ
  r : ℚ
  xm : ℚ
  tol : ℚ
  iter : ℕ
  evals : ℕ
  label : BLabel
deriving DecidableEq

/-- The convergence criterion evaluated at label `L40`:
`|0.5·(c − b)| ≤ 2·ε·|b| + 0.5·tol_cfg`, or `fb == 0`. -/
def brentCriterion (tolCfg : ℚ) (st : BrentState) : Bool :=
  decide (|(st.c - st.b) / 2| ≤ 2 * machEps * |st.b| + tolCfg / 2) ||
    decide (st.fb = 0)

/-- One step of the `Brentq::solve` state machine: `.inl` is a return from
the function (the `Result` together with the evaluation count), `.inr` the
next state.  Each arm transcribes the corresponding `Label::Lxx` arm of
the source's `match jump`. -/
def brentStep (tolCfg : ℚ) (maxiter : ℕ) (f : ℚ → ℚ) (st : BrentState) :
    (Except UnivariateError ℚ × ℕ) ⊕ BrentState :=
  match st.label with
  | .l20 =>
    .inr { st with c := st.a, fc := st.fa, d := st.b - st.a,
                   e := st.b - st.a, label := .l30 }
  | .l30 =>
    if |st.fc| ≥ |st.fb| then .inr { st with label := .l40 }
    else
      .inr { st with a := st.b, b := st.c, c := st.b,
                     fa := st.fb, fb := st.fc, fc := st.fb, label := .l40 }
  | .l40 =>
    let tol2 := 2 * machEps * |st.b| + tolCfg / 2
    let xm2 := (st.c - st.b) / 2
    let st2 :=
      if |xm2| ≤ tol2 ∨ st.fb = 0 then
        { st with tol := tol2, xm := xm2, label := .l150 }
      else if |st.e| ≥ tol2 ∧ st.fa > st.fb then
        { st with tol := tol2, xm := xm2, label := .l50 }
      else
        { st with tol := tol2, xm := xm2, d := xm2, e := xm2, label := .l110 }
    if st.iter > maxiter then
      .inl (.error (.notConverged st.a st.b), st.evals)
    else .inr st2
  | .l50 =>
    let s2 := st.fb / st.fa
    if st.a ≠ st.c then .inr { st with s := s2, label := .l60 }
    else
      .inr { st with s := s2, p := 2 * st.xm * s2, q := 1 - s2,
                     label := .l70 }
  | .l60 =>
    let q2 := st.fa / st.fc
    let r2 := st.fb / st.fc
    .inr { st with r := r2,
                   p := st.s * (2 * st.xm * q2 * (q2 - r2) -
                          (st.b - st.a) * (r2 - 1)),
                   q := (q2 - 1) * (r2 - 1) * (st.s - 1), label := .l70 }
  | .l70 =>
    if st.p ≤ 0 then .inr { st with label := .l80 }
    else .inr { st with q := -st.p, label := .l90 }
  | .l80 => .inr { st with p := -st.p, label := .l90 }
  | .l90 =>
    let s2 := st.e
    if 2 * st.p ≥ 3 * st.xm * st.q - |st.q * st.tol| ∨
        st.p ≥ |st.q * s2| / 2 then
      .inr { st with s := s2, e := st.d, label := .l100 }
    else
      .inr { st with s := s2, e := st.d, d := st.p / st.q, label := .l110 }
  | .l100 => .inr { st with d := st.xm, e := st.xm }
  | .l110 =>
    if |st.d| ≤ st.tol then
      .inr { st with a := st.b, fa := st.fb, label := .l120 }
    else
      .inr { st with a := st.b, fa := st.fb, b := st.b + st.d,
                     label := .l140 }
  | .l120 =>
    if st.xm ≤ 0 then .inr { st with label := .l130 }
    else .inr { st with b := st.b + st.tol, label := .l140 }
  | .l130 => .inr { st with b := st.b - st.tol, label := .l140 }
  | .l140 =>
    let fb2 := f st.b
    let st2 := { st with fb := fb2, iter := st.iter + 1,
                         evals := st.evals + 1 }
    if fb2 * (st.fc / |st.fc|) > 0 then .inr { st2 with label := .l20 }
    else .inr { st2 with label := .l30 }
  | .l150 => .inl (.ok st.b, st.evals)

/-- Run the `Brentq::solve` state machine for at most `fuel` steps;
`none` means the fuel ran out (which really can happen: the source's
`L100` arm never leaves `L100`). -/
def brentRun (tolCfg : ℚ) (maxiter : ℕ) (f : ℚ → ℚ) :
    ℕ → BrentState → Option (Except UnivariateError ℚ × ℕ)
  | 0, _ => none
  | fuel + 1, st =>
    match brentStep tolCfg maxiter f st with
    | .inl r => some r
    | .inr st2 => brentRun tolCfg maxiter f fuel st2

/-- Run the machine for `n` steps without consuming a result: `.inl` if the
function returned within `n` steps, `.inr` the state reached after `n`
steps.  Used to speak about the states a run passes through. -/
def brentIter (tolCfg : ℚ) (maxiter : ℕ) (f : ℚ → ℚ) :
    ℕ → BrentState → (Except UnivariateError ℚ × ℕ) ⊕ BrentState
  | 0, st => .inr st
  | n + 1, st =>
    match brentStep tolCfg maxiter f st with
    | .inl r => .inl r
    | .inr st2 => brentIter tolCfg maxiter f n st2

/-- The state in which `Brentq::solve` enters its `loop`: all numeric
locals zero-initialised except `tol = 1 + ε`, label `L20`, and the two
endpoint evaluations already counted. -/
def brentInit (lb fa ub fb : ℚ) : BrentState :=
  { a := lb, fa := fa, b := ub, fb := fb, c := 0, fc := 0, d := 0, e := 0,
    s := 0, p := 0, q := 0, r := 0, xm := 0, tol := 1 + machEps, iter := 0,
    evals := 2, label := .l20 }

/-- The entry point `Brentq::solve(f, lower_bound, upper_bound)` with configuration
`tolCfg` (`tol`, default `1e-8`) and `maxiter` (`maxiter`, default 100).
The result is paired with the number of `f.call` evaluations performed.
Terminating runs finish within `12·(maxiter + 3)` machine steps (each
label chain between two `L40` checks is short and each chain past `L40`
increments `iter`); if the fuel still runs out — which happens exactly on
runs that the source traps forever in `L100` — the embedding falls back to
a `NotConverged` value, marking a run that never converges. -/
def brentSolve (tolCfg : ℚ) (maxiter : ℕ) (f : ℚ → ℚ) (lb ub : ℚ) :
    Except UnivariateError ℚ × ℕ :=
  let fa := f lb
  let fb := f ub
  if fa * fb > 0 then (.error (.failed brentPrecondMsg), 2)
  else
    (brentRun tolCfg maxiter f (12 * (maxiter + 3))
        (brentInit lb fa ub fb)).getD
      (.error (.notConverged lb ub), 2)

/-! ## Specification-side formulas and concrete test functions -/

/-- The 4-stage correction of one SAND iteration exactly as the
specification words it: `k1` solves the Jacobian system at `x` against the
residual `f(x)`, `k2` the system at `x − k1/2` against the same residual,
`k3` at `x − k2/2`, `k4` at `x − k3`, and the new iterate is
`x − (k1 + 2(k2 + k3) + k4)/6`. -/
def sandStepSpec (f : List ℚ → List ℚ) (jacSolve : List ℚ → List ℚ → List ℚ)
    (x : List ℚ) : List ℚ :=
  let fv := f x
  let k1 := jacSolve x fv
  let k2 := jacSolve (vsub x (sdiv k1 2)) fv
  let k3 := jacSolve (vsub x (sdiv k2 2)) fv
  let k4 := jacSolve (vsub x k3) fv
  vsub x (sdiv (vadd (vadd k1 (smul 2 (vadd k2 k3))) k4) 6)

/-- The rank-1 "good Broyden" inverse-Jacobian update exactly as the
specification words it:
`J⁻¹ ← J⁻¹ + ((Δx − J⁻¹·Δf) ⊗ Δfᵗ) / (Δf·Δf)`. -/
def broydenUpdateSpec (jacInv : Matq) (dx df : List ℚ) : Matq :=
  matAdd jacInv
    (matSDiv (outerProd (vsub dx (matVec jacInv df)) df) (dot df df))

/-- The Broyden bootstrap step exactly as C10 words it: the diagonal
secant `G = (f(init) − init) / (2·f(init) − init − f(f(init)))`
(elementwise), and the proposed iterate `G·(f(f(init)) − f(init)) + f(init)`,
costing exactly the two evaluations `f(init)` and `f(f(init))`. -/
def broydenBootstrapSpec (f : List ℚ → List ℚ) (init : List ℚ) : List ℚ :=
  let y := f init
  let z := f (f init)
  let g := vdivE (vsub y init) (vsub (vsub (smul 2 y) init) z)
  vadd (vmulE g (vsub z y)) y

/-- Does the state reached after `n` machine steps sit at a convergence
check (`L40`) with the termination criterion satisfied? -/
def brentCriterionAt (tolCfg : ℚ) (maxiter : ℕ) (f : ℚ → ℚ) (n : ℕ)
    (st : BrentState) : Bool :=
  match brentIter tolCfg maxiter f n st with
  | .inr st2 => st2.label == .l40 && brentCriterion tolCfg st2
  | .inl _ => false

/-- A concrete scalar function for the Broyden idempotence counterexample:
a finite table on the points the two runs visit, the identity elsewhere. -/
def f9s (q : ℚ) : ℚ :=
  if q = 0 then 4
  else if q = 4 then 6
  else if q = 8 then 74 / 9
  else if q = 17 / 2 then 100
  else if q = 100 then 150
  else q

/-- The vector form of `f9s`, applied componentwise. -/
def f9 : List ℚ → List ℚ := fun v => v.map f9s

/-- A concrete scalar function for the C10 counterexample: `0 ↦ 1`,
`q ↦ 3q` elsewhere. -/
def f10s (q : ℚ) : ℚ := if q = 0 then 1 else 3 * q

/-- The vector form of `f10s`, applied componentwise. -/
def f10 : List ℚ → List ℚ := fun v => v.map f10s

/-! ## Helper lemmas -/

theorem dot_cons (a b : ℚ) (as' bs : List ℚ) :
    dot (a :: as') (b :: bs) = a * b + dot as' bs := by
  simp [dot]

theorem dot_map_zero (l v : List ℚ) :
    dot (l.map (fun _ => (0 : ℚ))) v = 0 := by
  induction l generalizing v with
  | nil => rfl
  | cons a l ih =>
    cases v with
    | nil => rfl
    | cons w ws => rw [List.map_cons, dot_cons, ih, zero_mul, zero_add]

theorem matVec_cons (r : List ℚ) (m : Matq) (v : List ℚ) :
    matVec (r :: m) v = dot r v :: matVec m v := rfl

theorem matVec_map_zero_cons (m : Matq) (w : ℚ) (ws : List ℚ) :
    matVec (m.map (fun r => 0 :: r)) (w :: ws) = matVec m ws := by
  induction m with
  | nil => rfl
  | cons r rs ih =>
    rw [List.map_cons, matVec_cons, matVec_cons, dot_cons, zero_mul, zero_add,
      ih]

theorem matVec_diagMat : ∀ g v : List ℚ, g.length = v.length →
    matVec (diagMat g) v = vmulE g v := by
  intro g
  induction g with
  | nil =>
    intro v h
    have hv : v = [] := List.length_eq_zero.mp h.symm
    subst hv; rfl
  | cons a as ih =>
    intro v h
    cases v with
    | nil => simp at h
    | cons w ws =>
      have hl : as.length = ws.length := by simpa using h
      show matVec ((a :: as.map (fun _ => 0)) ::
          (diagMat as).map (fun r => 0 :: r)) (w :: ws) = vmulE (a :: as) (w :: ws)
      rw [matVec_cons, dot_cons, dot_map_zero, add_zero, matVec_map_zero_cons,
        ih ws hl]
      rfl

theorem matAdd_comm (m n : Matq) : matAdd m n = matAdd n m := by
  unfold matAdd
  apply List.zipWith_comm_of_comm
  intro r s
  exact List.zipWith_comm_of_comm _ (fun x y => add_comm x y) r s

theorem smul_half (v : List ℚ) : smul (1 / 2) v = sdiv v 2 := by
  unfold smul sdiv
  congr 1
  funext x
  ring

theorem broydenConvergedTest_iff : ∀ a b atol rtol : List ℚ,
    b.length = a.length → atol.length = a.length → rtol.length = a.length →
    (broydenConvergedTest a b atol rtol = true ↔ tolSpec a b atol rtol) := by
  intro a
  induction a with
  | nil =>
    intro b atol rtol hb ht hr
    simp [broydenConvergedTest, tolSpec]
  | cons x xs ih =>
    intro b atol rtol hb ht hr
    cases b with
    | nil => simp at hb
    | cons y ys =>
      cases atol with
      | nil => simp at ht
      | cons t ts =>
        cases rtol with
        | nil => simp at hr
        | cons r rs =>
          rw [show broydenConvergedTest (x :: xs) (y :: ys) (t :: ts) (r :: rs) =
              (decide (|x - y| < t + r * max |x| |y|) &&
                broydenConvergedTest xs ys ts rs) from rfl]
          rw [Bool.and_eq_true, decide_eq_true_eq,
            ih ys ts rs (by simpa using hb) (by simpa using ht)
              (by simpa using hr)]
          constructor
          · rintro ⟨h1, h2⟩ i hi
            cases i with
            | zero => simpa using h1
            | succ j =>
              have hj : j < xs.length := by simpa using hi
              simpa using h2 j hj
          · intro h
            refine ⟨by simpa using h 0 (by simp), ?_⟩
            intro j hj
            simpa using h (j + 1) (by simpa using hj)

theorem steffensenConvergedTest_eq_broyden : ∀ a b atol rtol : List ℚ,
    steffensenConvergedTest a b atol rtol =
      broydenConvergedTest a b atol rtol := by
  intro a
  induction a with
  | nil => intro b atol rtol; rfl
  | cons x xs ih =>
    intro b atol rtol
    cases b with
    | nil => rfl
    | cons y ys =>
      cases atol with
      | nil => rfl
      | cons t ts =>
        cases rtol with
        | nil => rfl
        | cons r rs =>
          show (decide _ && steffensenConvergedTest xs ys ts rs) =
            (decide _ && broydenConvergedTest xs ys ts rs)
          rw [ih]

theorem wegsteinConvergedTest_eq_broyden : ∀ a b atol rtol : List ℚ,
    wegsteinConvergedTest a b atol rtol =
      broydenConvergedTest a b atol rtol := by
  intro a
  induction a with
  | nil => intro b atol rtol; rfl
  | cons x xs ih =>
    intro b atol rtol
    cases b with
    | nil => rfl
    | cons y ys =>
      cases atol with
      | nil => rfl
      | cons t ts =>
        cases rtol with
        | nil => rfl
        | cons r rs =>
          show (decide _ && wegsteinConvergedTest xs ys ts rs) =
            (decide _ && broydenConvergedTest xs ys ts rs)
          rw [ih]

/-- C4.  Steffensen, Wegstein, and Broyden all decide convergence between
two vectors `a` and `b` (of matching lengths, as the sources require their
`Zip`s to have) by the same elementwise predicate
`∀ i, |a_i − b_i| < atol_i + rtol_i · max(|a_i|, |b_i|)`, the test passing
only if it holds for all components. -/
theorem convergence_predicate_shared (a b atol rtol : List ℚ)
    (hb : b.length = a.length) (ht : atol.length = a.length)
    (hr : rtol.length = a.length) :
    (broydenConvergedTest a b atol rtol = true ↔ tolSpec a b atol rtol) ∧
    (steffensenConvergedTest a b atol rtol = true ↔ tolSpec a b atol rtol) ∧
    (wegsteinConvergedTest a b atol rtol = true ↔ tolSpec a b atol rtol) := by
  refine ⟨broydenConvergedTest_iff a b atol rtol hb ht hr, ?_, ?_⟩
  · rw [steffensenConvergedTest_eq_broyden]
    exact broydenConvergedTest_iff a b atol rtol hb ht hr
  · rw [wegsteinConvergedTest_eq_broyden]
    exact broydenConvergedTest_iff a b atol rtol hb ht hr

/-- Witness for C4 at a concrete input. -/
theorem convergence_predicate_shared_witness :
    (broydenConvergedTest [1, 2] [3/2, 2] [1, 1] [0, 1/2] = true ↔
      tolSpec [1, 2] [3/2, 2] [1, 1] [0, 1/2]) ∧
    (steffensenConvergedTest [1, 2] [3/2, 2] [1, 1] [0, 1/2] = true ↔
      tolSpec [1, 2] [3/2, 2] [1, 1] [0, 1/2]) :=
  ⟨(convergence_predicate_shared [1, 2] [3/2, 2] [1, 1] [0, 1/2]
      rfl rfl rfl).1,
   (convergence_predicate_shared [1, 2] [3/2, 2] [1, 1] [0, 1/2]
      rfl rfl rfl).2.1⟩

theorem sandConvergedTest_iff : ∀ fv tol : List ℚ,
    fv.length = tol.length →
    (sandConvergedTest fv tol = true ↔
      ∀ i, i < fv.length → |fv.getD i 0| < tol.getD i 0) := by
  intro fv
  induction fv with
  | nil => intro tol h; simp [sandConvergedTest]
  | cons x xs ih =>
    intro tol h
    cases tol with
    | nil => simp at h
    | cons t ts =>
      rw [show sandConvergedTest (x :: xs) (t :: ts) =
          (decide (|x| < t) && sandConvergedTest xs ts) from rfl]
      rw [Bool.and_eq_true, decide_eq_true_eq, ih ts (by simpa using h)]
      constructor
      · rintro ⟨h1, h2⟩ i hi
        cases i with
        | zero => simpa using h1
        | succ j => simpa using h2 j (by simpa using hi)
      · intro hall
        refine ⟨by simpa using hall 0 (by simp), ?_⟩
        intro j hj
        simpa using hall (j + 1) (by simpa using hj)

/-- C6.  Every iteration of `Sand::solve` first evaluates the residual
`f(x)` and returns `x` if every component satisfies `|f_i| < tol_i`
(second conjunct: the Boolean test means exactly that, for residual and
tolerance vectors of the same length); otherwise it performs the 4-stage
correction `k1` at `x`, `k2` at `x − k1/2`, `k3` at `x − k2/2`, `k4` at
`x − k3` — all against the residual `f(x)` — and continues from
`x − (k1 + 2(k2 + k3) + k4)/6`. -/
theorem sand_iteration (f : List ℚ → List ℚ)
    (jacSolve : List ℚ → List ℚ → List ℚ) (tol x : List ℚ) (k : ℕ) :
    (sandConvergedTest (f x) tol = true → sandLoop f jacSolve tol (k + 1) x = x) ∧
    ((f x).length = tol.length →
      (sandConvergedTest (f x) tol = true ↔
        ∀ i, i < (f x).length → |(f x).getD i 0| < tol.getD i 0)) ∧
    (sandConvergedTest (f x) tol = false →
      sandLoop f jacSolve tol (k + 1) x =
        sandLoop f jacSolve tol k (sandStepSpec f jacSolve x)) := by
  refine ⟨?_, sandConvergedTest_iff (f x) tol, ?_⟩
  · intro h
    simp [sandLoop, h]
  · intro h
    simp only [sandLoop, sandStepSpec, h, Bool.false_eq_true, if_false,
      smul_half]

/-- Witness for C6 at a concrete input: `f(x) = x² − 2` at `x = [2]` with
the `FullJacobian`-style solve `δ = b / (2x)`. -/
theorem sand_iteration_witness :
    sandLoop (fun v => [v.headD 0 * v.headD 0 - 2])
      (fun v b => [b.headD 0 / (2 * v.headD 0)]) [1/1000000] 1 [2] =
      sandLoop (fun v => [v.headD 0 * v.headD 0 - 2])
        (fun v b => [b.headD 0 / (2 * v.headD 0)]) [1/1000000] 0
        (sandStepSpec (fun v => [v.headD 0 * v.headD 0 - 2])
          (fun v b => [b.headD 0 / (2 * v.headD 0)]) [2]) :=
  (sand_iteration (fun v => [v.headD 0 * v.headD 0 - 2])
    (fun v b => [b.headD 0 / (2 * v.headD 0)]) [1/1000000] [2] 0).2.2
    (by norm_num [sandConvergedTest])

/-- C3.  In every Newton-Raphson iteration whose residual does not yet
satisfy the tolerance, a non-square Jacobian makes `NewtonRaphson::solve`
halt with the fatal abort (`panic!`, embedded as the `Except.error` of the
unrecoverable `NewtonAbort`), not with any ordinary return value; if the
Jacobian is square that abort branch is not taken and the update
`x ← x − δ` is performed with the `δ` produced by the linear-solve
capability for the system `J·δ = f(x)`. -/
theorem newton_nonsquare_fatal (f : List ℚ → List ℚ)
    (jac : List ℚ → List ℚ → Matq) (ls : Matq → List ℚ → Option (List ℚ))
    (tol x : List ℚ) (k : ℕ)
    (hconv : newtonConvergedTest (f x) tol = false) :
    (shape0 (jac x (f x)) ≠ shape1 (jac x (f x)) →
      newtonLoop f jac ls tol (k + 1) x =
        .error (.nonSquareJacobian (shape0 (jac x (f x)))
          (shape1 (jac x (f x))))) ∧
    (shape0 (jac x (f x)) = shape1 (jac x (f x)) →
      ∀ d, ls (jac x (f x)) (f x) = some d →
        newtonLoop f jac ls tol (k + 1) x =
          newtonLoop f jac ls tol k (vsub x d)) := by
  constructor
  · intro hsq
    simp [newtonLoop, hconv, hsq]
  · intro hsq d hd
    simp [newtonLoop, hconv, hsq, hd]

/-- Witness for C3: `f(x) = x` at `x = [1]`, tolerance `[1/2]`, with a
2×1 (non-square) Jacobian in the first conjunct and a square Jacobian and
concrete linear solve in the second. -/
theorem newton_nonsquare_fatal_witness :
    newtonLoop (fun v => v) (fun _ _ => [[1], [1]]) (fun _ _ => none) [1/2]
      1 [1] = .error (.nonSquareJacobian 2 1) ∧
    newtonLoop (fun v => v) (fun _ _ => [[2]]) (fun _ b => some (sdiv b 2))
      [1/2] 1 [1] =
      newtonLoop (fun v => v) (fun _ _ => [[2]]) (fun _ b => some (sdiv b 2))
        [1/2] 0 (vsub [1] (sdiv [1] 2)) :=
  ⟨(newton_nonsquare_fatal (fun v => v) (fun _ _ => [[1], [1]])
      (fun _ _ => none) [1/2] [1] 0 (by norm_num [newtonConvergedTest])).1
      (by decide),
   (newton_nonsquare_fatal (fun v => v) (fun _ _ => [[2]])
      (fun _ b => some (sdiv b 2)) [1/2] [1] 0
      (by norm_num [newtonConvergedTest])).2 rfl (sdiv [1] 2) rfl⟩

/-- C5.  In every main-loop iteration of `Broyden::solve` (state
`(x_prev, f(x_prev), x, J⁻¹)`, the second component being the cached
function value of the first), the inverse-Jacobian estimate is updated by
the rank-1 formula `broydenUpdateSpec` with `Δx = x − x_prev` and
`Δf = (x − f(x)) − (x_prev − f(x_prev))` (the change in `x − f(x)` between
the two iterates), and the next iterate is proposed as
`J⁻¹·(y_prev − x_prev) + x_prev` where, after the history swap,
`y_prev = f(x)` and `x_prev = x` are the current pair. -/
theorem broyden_rank1_update (f : List ℚ → List ℚ) (atol rtol xp x : List ℚ)
    (jacInv : Matq) (k : ℕ) :
    broydenLoop f atol rtol (k + 1) (xp, f xp, x, jacInv) =
      (let y := f x
       let dx := vsub x xp
       let df := vsub (vsub x (f x)) (vsub xp (f xp))
       let jacInv2 := broydenUpdateSpec jacInv dx df
       let x2 := vadd (matVec jacInv2 (vsub y x)) x
       if broydenConvergedTest x2 x atol rtol then (x2, true)
       else broydenLoop f atol rtol k (x, y, x2, jacInv2)) := by
  simp only [broydenLoop, broydenUpdateSpec, matAdd_comm]

/-- C7.  `BandedJacobian::solve_jacobian` with `ml = mu = 0` returns
exactly the elementwise quotient `b_i / diags[0]_i`; with any nonzero
bandwidth (including `ml ≥ 2` or `mu ≥ 2`) it fails loudly with the
unimplemented signal (`todo!`). -/
theorem banded_solve_diagonal_only (B : BandedJacobian) (b : List ℚ) :
    (B.ml = 0 → B.mu = 0 →
      B.solve_jacobian b = .ok (List.zipWith (· / ·) b (B.diags.headD []))) ∧
    (0 < B.ml ∨ 0 < B.mu →
      B.solve_jacobian b = .error .unimplemented) := by
  constructor
  · intro hml hmu
    simp [BandedJacobian.solve_jacobian, hml, hmu]
  · intro h
    have hne : ¬(B.ml = 0 ∧ B.mu = 0) := by omega
    unfold BandedJacobian.solve_jacobian
    rw [if_neg hne]
    by_cases h2 : B.ml < 2 ∧ B.mu < 2
    · rw [if_pos h2]
    · rw [if_neg h2]

/-- Witness for C7: a diagonal banded Jacobian with `diags[0] = [2, 4]`
solved against `[4, 8]`, and an `ml = 2` banded Jacobian failing loudly. -/
theorem banded_solve_diagonal_only_witness :
    BandedJacobian.solve_jacobian ⟨0, 0, [[2, 4]]⟩ [4, 8] = .ok [2, 2] ∧
    BandedJacobian.solve_jacobian ⟨2, 0, [[1], [1], [1]]⟩ [1] =
      .error .unimplemented := by
  constructor
  · have := (banded_solve_diagonal_only ⟨0, 0, [[2, 4]]⟩ [4, 8]).1 rfl rfl
    rw [this]
    norm_num
  · exact (banded_solve_diagonal_only ⟨2, 0, [[1], [1], [1]]⟩ [1]).2
      (Or.inl (by decide))

/-- C8 counterexample: for the 2×2 identity `FullJacobian` and the
length-2 residual `[1, 1]`, `solve_jacobian` does not return any solution
vector at all — it hits the `todo!()` panic — so the dense solve is not
implemented for arbitrary square matrices. -/
theorem full_solve_two_by_two_unimplemented :
    FullJacobian.solve_jacobian ⟨[[1, 0], [0, 1]]⟩ [1, 1] =
      .error .unimplemented := by
  simp [FullJacobian.solve_jacobian]

/-- C8 (amended).  `FullJacobian::solve_jacobian` handles only the 1×1
dense case: for a residual `b` of length 1 it returns `[b₀ / J₀₀]` — which
does solve `J·Δx = b` whenever `J = [[j]]` with `j ≠ 0` — and for every
residual of any other length it fails with the unimplemented (`todo!`)
signal rather than returning a value. -/
theorem full_solve_restricted_to_1x1 (J : FullJacobian) (b : List ℚ) :
    (b.length = 1 →
      J.solve_jacobian b = .ok [b.headD 0 / (J.mat.headD []).headD 0]) ∧
    (b.length ≠ 1 → J.solve_jacobian b = .error .unimplemented) ∧
    (∀ j v, J.mat = [[j]] → j ≠ 0 → J.solve_jacobian b = .ok v →
      matVec J.mat v = b) := by
  refine ⟨?_, ?_, ?_⟩
  · intro h
    simp [FullJacobian.solve_jacobian, h]
  · intro h
    simp [FullJacobian.solve_jacobian, h]
  · intro j v hJ hj hsolve
    obtain ⟨b0, rfl⟩ : ∃ b0, b = [b0] := by
      unfold FullJacobian.solve_jacobian at hsolve
      by_cases hb : b.length = 1
      · obtain ⟨b0, hb0⟩ := List.length_eq_one.mp hb
        exact ⟨b0, hb0⟩
      · rw [if_neg hb] at hsolve
        exact absurd hsolve (by simp)
    unfold FullJacobian.solve_jacobian at hsolve
    rw [if_pos (by simp)] at hsolve
    have hv : v = [b0 / (J.mat.headD []).headD 0] := by
      simpa using hsolve.symm
    subst hv
    rw [hJ]
    show [dot [j] [b0 / j]] = [b0]
    rw [show (J.mat.headD []).headD 0 = j by rw [hJ]; rfl] at *
    rw [dot_cons]
    show [j * (b0 / j) + dot [] []] = [b0]
    rw [mul_div_cancel₀ b0 hj]
    simp [dot]

/-- Witness for C8's amended theorem: the 1×1 Jacobian `[[2]]` against
`[4]`, and the solution property `J·Δx = b` at that input. -/
theorem full_solve_restricted_to_1x1_witness :
    FullJacobian.solve_jacobian ⟨[[2]]⟩ [4] = .ok [2] ∧
    matVec [[2]] [2] = [4] := by
  have h1 := (full_solve_restricted_to_1x1 ⟨[[2]]⟩ [4]).1 rfl
  norm_num [List.headD] at h1
  refine ⟨h1, ?_⟩
  have h2 := (full_solve_restricted_to_1x1 ⟨[[2]]⟩ [4]).2.2 2 [2] rfl
    (by norm_num) h1
  simpa using h2

/-- C9 (amended).  For Newton-Raphson, SAND, Steffensen, and Wegstein,
re-invoking `solve` with a converged output `x` — one satisfying the
solver's own convergence test, as any output returned through the
convergence branch does — returns exactly the same point `x`: each of these
solvers checks its convergence test against the initial guess before
taking any step.  (Broyden is excluded: its test compares two successive
iterates and is never applied to the initial guess, and re-invoking it can
move arbitrarily far — see the counterexample.) -/
theorem reinvoke_converged_returns_same :
    (∀ (f : List ℚ → List ℚ) (jac : List ℚ → List ℚ → Matq)
        (ls : Matq → List ℚ → Option (List ℚ)) (tol x : List ℚ) (k : ℕ),
      newtonConvergedTest (f x) tol = true →
        newtonSolve f jac ls x tol k = .ok x) ∧
    (∀ (f : List ℚ → List ℚ) (jacSolve : List ℚ → List ℚ → List ℚ)
        (tol x : List ℚ) (k : ℕ),
      sandConvergedTest (f x) tol = true → sandSolve f jacSolve x tol k = x) ∧
    (∀ (f : List ℚ → List ℚ) (atol rtol x : List ℚ) (k : ℕ),
      steffensenConvergedTest (f x) x atol rtol = true →
        steffensenSolve f x atol rtol k = x) ∧
    (∀ (f : List ℚ → List ℚ) (atol rtol x : List ℚ) (k : ℕ),
      wegsteinConvergedTest (f x) x atol rtol = true →
        wegsteinSolve f x atol rtol k = x) := by
  refine ⟨?_, ?_, ?_, ?_⟩
  · intro f jac ls tol x k h
    cases k with
    | zero => rfl
    | succ n => simp [newtonSolve, newtonLoop, h]
  · intro f jacSolve tol x k h
    cases k with
    | zero => rfl
    | succ n => simp [sandSolve, sandLoop, h]
  · intro f atol rtol x k h
    cases k with
    | zero => rfl
    | succ n => simp [steffensenSolve, steffensenLoop, steffensenApply, h]
  · intro f atol rtol x k h
    simp [wegsteinSolve, wegsteinApply, h]

/-- Witness for C9's amended theorem: `f` the identity (so `f(x) = x` is a
fixed point), output `[0]`, tolerances `atol = [1]`, `rtol = [0]`. -/
theorem reinvoke_converged_returns_same_witness :
    newtonSolve (fun v => v) (fun _ _ => [[1]]) (fun _ _ => none) [0] [1] 20
      = .ok [0] ∧
    sandSolve (fun v => v) (fun _ b => b) [0] [1] 500 = [0] ∧
    steffensenSolve (fun v => v) [0] [1] [0] 500 = [0] ∧
    wegsteinSolve (fun v => v) [0] [1] [0] 500 = [0] :=
  ⟨reinvoke_converged_returns_same.1 (fun v => v) (fun _ _ => [[1]])
      (fun _ _ => none) [1] [0] 20 (by norm_num [newtonConvergedTest]),
   reinvoke_converged_returns_same.2.1 (fun v => v) (fun _ b => b) [1] [0]
      500 (by norm_num [sandConvergedTest]),
   reinvoke_converged_returns_same.2.2.1 (fun v => v) [1] [0] [0] 500
      (by norm_num [steffensenConvergedTest]),
   reinvoke_converged_returns_same.2.2.2 (fun v => v) [1] [0] [0] 500
      (by norm_num [wegsteinConvergedTest])⟩

set_option maxRecDepth 4000 in
/-- C9 counterexample.  With `f9`, `atol = [1]`, `rtol = [0]` and
`max_iter = 2`, `Broyden::solve([0])` converges (flag `true`) to
`x* = [17/2]`; re-invoking the same solver with initial guess `x*` also
converges (flag `true`) but to `[17450/83] ≈ [210.2]`, more than 200 away
from `x*` — not approximately the same point on any reading. -/
theorem broyden_reinvoke_moves_far :
    broydenSolveFlag f9 [0] [1] [0] 2 = ([17 / 2], true) ∧
    broydenSolveFlag f9 [17 / 2] [1] [0] 2 = ([17450 / 83], true) ∧
    (200 : ℚ) < |17450 / 83 - 17 / 2| := by
  refine ⟨?_, ?_, by norm_num [abs]⟩
  · norm_num [broydenSolveFlag, broydenLoop, f9, f9s, vsub, vadd, vmulE,
      vdivE, smul, sdiv, dot, matVec, outerProd, matAdd, matSDiv, diagMat,
      broydenConvergedTest, abs]
  · norm_num [broydenSolveFlag, broydenLoop, f9, f9s, vsub, vadd, vmulE,
      vdivE, smul, sdiv, dot, matVec, outerProd, matAdd, matSDiv, diagMat,
      broydenConvergedTest, abs]

/-- C10 (amended).  `Broyden::solve` applies no convergence test before
the bootstrap: whenever `max_iter ≤ 1` (so the main loop never runs) it
returns exactly the diagonal-secant bootstrap iterate — with elementwise
denominator `2·f(init) − init − f(f(init))` — having evaluated `f` twice,
for every initial guess, including an exact fixed point.  (The original
claim's final clause — that `solve` can never return `init` itself — is
false: a later iterate can coincide with `init`; see the counterexample.) -/
theorem broyden_bootstrap_unconditional (f : List ℚ → List ℚ)
    (init atol rtol : List ℚ) (maxIter : ℕ)
    (hy : (f init).length = init.length)
    (hz : (f (f init)).length = init.length) (hm : maxIter ≤ 1) :
    broydenSolve f init atol rtol maxIter = broydenBootstrapSpec f init := by
  have h0 : maxIter - 1 = 0 := by omega
  unfold broydenSolve broydenSolveFlag broydenBootstrapSpec
  rw [h0]
  show vadd (matVec (diagMat (vdivE (vsub (f init) init)
      (vsub (vsub (smul 2 (f init)) init) (f (f init)))))
      (vsub (f (f init)) (f init))) (f init) = _
  rw [matVec_diagMat]
  simp [vdivE, vsub, vadd, smul, List.length_zipWith, List.length_map,
    hy, hz]

/-- Witness for C10's amended theorem, at `f9` (from the C9
counterexample) with `max_iter = 1`. -/
theorem broyden_bootstrap_unconditional_witness :
    broydenSolve f9 [0] [2] [0] 1 = broydenBootstrapSpec f9 [0] :=
  broyden_bootstrap_unconditional f9 [0] [2] [0] 1
    (by norm_num [f9, f9s]) (by norm_num [f9, f9s]) (by decide)

/-- C10 counterexample.  With `f10`, `atol = [2]`, `rtol = [0]` and
`max_iter = 2`, `Broyden::solve([0])` returns `[0]` — exactly the initial
guess — because the first main-loop iterate lands back on `init` and
passes the convergence test; so "it never returns init itself" is
false. -/
theorem broyden_returns_init :
    broydenSolve f10 [0] [2] [0] 2 = [0] := by
  norm_num [broydenSolve, broydenSolveFlag, broydenLoop, f10, f10s, vsub,
    vadd, vmulE, vdivE, smul, sdiv, dot, matVec, outerProd, matAdd, matSDiv,
    diagMat, broydenConvergedTest, abs]

theorem brentStep_no_failed (tolCfg : ℚ) (maxiter : ℕ) (f : ℚ → ℚ)
    (st : BrentState) (m : String) (n : ℕ) :
    brentStep tolCfg maxiter f st ≠ .inl (.error (.failed m), n) := by
  cases hl : st.label <;> simp [brentStep, hl] <;> split_ifs <;> simp

theorem brentRun_no_failed (tolCfg : ℚ) (maxiter : ℕ) (f : ℚ → ℚ) :
    ∀ (fuel : ℕ) (st : BrentState) (m : String) (n : ℕ),
      brentRun tolCfg maxiter f fuel st ≠ some (.error (.failed m), n) := by
  intro fuel
  induction fuel with
  | zero => intro st m n; simp [brentRun]
  | succ k ih =>
    intro st m n
    simp only [brentRun]
    cases hs : brentStep tolCfg maxiter f st with
    | inl r =>
      intro h
      have hr := Option.some.inj h
      rw [hr] at hs
      exact brentStep_no_failed tolCfg maxiter f st m n hs
    | inr st2 => exact ih st2 m n

theorem brentStep_notConverged (tolCfg : ℚ) (maxiter : ℕ) (f : ℚ → ℚ)
    (st : BrentState) (x y : ℚ) (n : ℕ)
    (h : brentStep tolCfg maxiter f st = .inl (.error (.notConverged x y), n)) :
    st.label = .l40 ∧ maxiter < st.iter ∧ st.a = x ∧ st.b = y ∧
      st.evals = n := by
  cases hl : st.label
  case l40 =>
    simp only [brentStep, hl] at h
    split_ifs at h with hiter
    simp only [Sum.inl.injEq, Prod.mk.injEq, Except.error.injEq,
      UnivariateError.notConverged.injEq] at h
    obtain ⟨⟨hx, hy⟩, hn⟩ := h
    exact ⟨rfl, hiter, hx, hy, hn⟩
  all_goals
    simp only [brentStep, hl] at h
    first
    | (split_ifs at h <;> simp_all)
    | simp_all

theorem brentRun_notConverged_source (tolCfg : ℚ) (maxiter : ℕ) (f : ℚ → ℚ) :
    ∀ (fuel : ℕ) (st : BrentState) (x y : ℚ) (n : ℕ),
      brentRun tolCfg maxiter f fuel st =
          some (.error (.notConverged x y), n) →
        ∃ (j : ℕ) (st2 : BrentState),
          brentIter tolCfg maxiter f j st = .inr st2 ∧ st2.label = .l40 ∧
            maxiter < st2.iter ∧ st2.a = x ∧ st2.b = y ∧ st2.evals = n := by
  intro fuel
  induction fuel with
  | zero => intro st x y n h; simp [brentRun] at h
  | succ k ih =>
    intro st x y n h
    rw [brentRun] at h
    cases hs : brentStep tolCfg maxiter f st with
    | inl r =>
      rw [hs] at h
      have hr := Option.some.inj h
      rw [hr] at hs
      obtain ⟨h1, h2, h3, h4, h5⟩ :=
        brentStep_notConverged tolCfg maxiter f st x y n hs
      exact ⟨0, st, rfl, h1, h2, h3, h4, h5⟩
    | inr st2 =>
      rw [hs] at h
      obtain ⟨j, st3, hj, h1, h2, h3, h4, h5⟩ := ih st2 x y n h
      refine ⟨j + 1, st3, ?_, h1, h2, h3, h4, h5⟩
      rw [brentIter, hs]
      exact hj

/-- C1 (amended).  At every convergence check (label `L40`) of
`Brentq::solve`: if the iteration count has not exceeded the cap and the
termination criterion holds — `|c − b|/2 ≤ 2·ε·|b| + tol/2` or `f(b)`
exactly zero — the run returns `Ok(b)` (first conjunct); but as soon as a
check is reached with the count exceeding the cap the run returns
`Err(NotConverged(a, b))` with the current bracket endpoints, even if the
criterion holds at that same check (second conjunct); and every
`NotConverged` result arises from such a cap-exceeded check reached by the
run (third conjunct). -/
theorem brent_convergence_check (tolCfg : ℚ) (maxiter : ℕ) (f : ℚ → ℚ) :
    (∀ (st : BrentState) (fuel : ℕ), st.label = .l40 →
      st.iter ≤ maxiter → brentCriterion tolCfg st = true →
      brentRun tolCfg maxiter f (fuel + 2) st = some (.ok st.b, st.evals)) ∧
    (∀ (st : BrentState) (fuel : ℕ), st.label = .l40 →
      maxiter < st.iter →
      brentRun tolCfg maxiter f (fuel + 1) st =
        some (.error (.notConverged st.a st.b), st.evals)) ∧
    (∀ (fuel : ℕ) (st : BrentState) (x y : ℚ) (n : ℕ),
      brentRun tolCfg maxiter f fuel st =
          some (.error (.notConverged x y), n) →
        ∃ (j : ℕ) (st2 : BrentState),
          brentIter tolCfg maxiter f j st = .inr st2 ∧ st2.label = .l40 ∧
            maxiter < st2.iter ∧ st2.a = x ∧ st2.b = y ∧ st2.evals = n) := by
  refine ⟨?_, ?_, brentRun_notConverged_source tolCfg maxiter f⟩
  · intro st fuel hl hiter hcrit
    have hcrit2 : |(st.c - st.b) / 2| ≤ 2 * machEps * |st.b| + tolCfg / 2 ∨
        st.fb = 0 := by
      simpa [brentCriterion] using hcrit
    have hnot : ¬st.iter > maxiter := by omega
    have h1 : brentStep tolCfg maxiter f st =
        .inr { st with tol := 2 * machEps * |st.b| + tolCfg / 2,
                       xm := (st.c - st.b) / 2, label := .l150 } := by
      simp only [brentStep, hl]
      rw [if_pos hcrit2, if_neg hnot]
    have h2 : brentStep tolCfg maxiter f
        { st with tol := 2 * machEps * |st.b| + tolCfg / 2,
                  xm := (st.c - st.b) / 2, label := .l150 } =
        .inl (.ok st.b, st.evals) := rfl
    rw [show fuel + 2 = (fuel + 1) + 1 from rfl]
    simp only [brentRun, h1, h2]
  · intro st fuel hl hiter
    have h1 : brentStep tolCfg maxiter f st =
        .inl (.error (.notConverged st.a st.b), st.evals) := by
      simp only [brentStep, hl]
      rw [if_pos hiter]
    simp only [brentRun, h1]

/-- Witness for C1's amended theorem at two concrete `L40` states (fields
in order `a fa b fb c fc d e s p q r xm tol iter evals label`): one whose
iteration count 5 exceeds the cap 3, and one within the cap whose
criterion holds because `fb = 0`. -/
theorem brent_convergence_check_witness :
    brentRun 1 3 (fun x => x) 1
        ⟨1, 1, 2, 1, 3, 1, 0, 0, 0, 0, 0, 0, 0, 0, 5, 7, .l40⟩ =
      some (.error (.notConverged 1 2), 7) ∧
    brentRun 1 3 (fun x => x) 2
        ⟨1, 1, 2, 0, 3, 1, 0, 0, 0, 0, 0, 0, 0, 0, 2, 9, .l40⟩ =
      some (.ok 2, 9) :=
  ⟨(brent_convergence_check 1 3 (fun x => x)).2.1
      ⟨1, 1, 2, 1, 3, 1, 0, 0, 0, 0, 0, 0, 0, 0, 5, 7, .l40⟩ 0 rfl
      (by decide),
   (brent_convergence_check 1 3 (fun x => x)).1
      ⟨1, 1, 2, 0, 3, 1, 0, 0, 0, 0, 0, 0, 0, 0, 2, 9, .l40⟩ 0 rfl
      (by decide) (by norm_num [brentCriterion])⟩

/-- C1 counterexample.  For `f(x) = x` on the bracket `[-1, 2]` with the
default `tol = 1e-8` and `maxiter = 0`, the run reaches (after 10 steps) a
convergence check at which the termination criterion holds — `f(b) = 0`
exactly, at `b = 0` — yet `solve` returns `Err(NotConverged(-1, 0))`
(after 3 evaluations of `f`), because the cap test fires at that same
check; so "returns Ok(b) whenever the criterion holds during the
iteration" is false as stated. -/
theorem brent_err_despite_criterion :
    brentSolve (1 / 10 ^ 8) 0 (fun x => x) (-1) 2 =
      (.error (.notConverged (-1) 0), 3) ∧
    brentCriterionAt (1 / 10 ^ 8) 0 (fun x => x) 10
      (brentInit (-1) (-1) 2 2) = true := by
  constructor
  · norm_num [brentSolve, brentRun, brentStep, brentInit, machEps, abs]
  · norm_num [brentCriterionAt, brentIter, brentStep, brentInit,
      brentCriterion, machEps, abs]

/-- C2.  If `f(lower_bound)` and `f(upper_bound)` are both nonzero with
the same sign, `Brentq::solve` returns the descriptive `Failed`
precondition error immediately, with exactly the two endpoint evaluations
of `f` and no further ones (the second component of the result counts the
`f.call`s); if the endpoint values have opposite signs or one is exactly
zero, a `Failed` error is never returned, whatever the run does. -/
theorem brent_precondition (tolCfg : ℚ) (maxiter : ℕ) (f : ℚ → ℚ)
    (lb ub : ℚ) :
    ((0 < f lb ∧ 0 < f ub) ∨ (f lb < 0 ∧ f ub < 0) →
      brentSolve tolCfg maxiter f lb ub =
        (.error (.failed brentPrecondMsg), 2)) ∧
    (f lb * f ub ≤ 0 →
      ∀ m, (brentSolve tolCfg maxiter f lb ub).1 ≠ .error (.failed m)) := by
  constructor
  · intro h
    have hpos : f lb * f ub > 0 := by
      rcases h with ⟨h1, h2⟩ | ⟨h1, h2⟩
      · exact mul_pos h1 h2
      · exact mul_pos_of_neg_of_neg h1 h2
    unfold brentSolve
    rw [if_pos hpos]
  · intro h m
    have hneg : ¬f lb * f ub > 0 := not_lt.mpr h
    unfold brentSolve
    rw [if_neg hneg]
    cases hr : brentRun tolCfg maxiter f (12 * (maxiter + 3))
        (brentInit lb (f lb) ub (f ub)) with
    | none => simp
    | some r =>
      obtain ⟨r1, r2⟩ := r
      simp only [Option.getD_some]
      intro hbad
      rw [show r1 = Except.error (.failed m) from hbad] at hr
      exact brentRun_no_failed tolCfg maxiter f _ _ m r2 hr

/-- Witness for C2: `f ≡ 1` on `[0, 1]` violates the sign precondition
and yields the `Failed` error after exactly 2 evaluations; `f(x) = x` on
`[-1, 2]` satisfies it and can never produce a `Failed` error. -/
theorem brent_precondition_witness :
    brentSolve (1 / 10 ^ 8) 100 (fun _ => 1) 0 1 =
      (.error (.failed brentPrecondMsg), 2) ∧
    (brentSolve (1 / 10 ^ 8) 100 (fun x => x) (-1) 2).1 ≠
      .error (.failed brentPrecondMsg) :=
  ⟨(brent_precondition (1 / 10 ^ 8) 100 (fun _ => 1) 0 1).1
      (Or.inl ⟨by norm_num, by norm_num⟩),
   (brent_precondition (1 / 10 ^ 8) 100 (fun x => x) (-1) 2).2
      (by norm_num) brentPrecondMsg⟩
